import Mathlib

/-!
Verification of the pittie_bot core (src/main.rs): the image store, the
event dispatcher, the command router and the config bootstrap, shallowly
embedded in Lean.

Modelling conventions:
* Rust `String`/`&str` become Lean `String`; byte-indexed operations
  (`&s[n..]`, `starts_with`) are embedded at character granularity, which
  coincides with the source on every input the dispatcher feeds them.
* `Vec<u8>` payloads become `List Nat`.
* The filesystem and the Discord HTTP client are external collaborators;
  they are passed in as explicit environments (`Fs`, `HttpEnv`).
* `fastrand::usize(..len)` is modelled by an arbitrary draw `r : Nat`
  reduced `mod len`, which is exactly an in-bounds index.
* A Rust panic (out-of-bounds index) is modelled by `Option.none`.
* `eprintln!`/`println!` output is collected in `stderr`/`stdout` lists.
-/

/-- An image entry: display name paired with its byte payload
(`type Image = (String, Vec<u8>)` in the source). -/
abbrev Image := String × List Nat

/-- Embeds Rust `str::split(" ")` on character lists: split on every single
space, keeping empty pieces; splitting the empty string yields `[[]]`. -/
def splitSpace : List Char → List (List Char)
  | [] => [[]]
  | c :: cs =>
    if c = ' ' then [] :: splitSpace cs
    else
      match splitSpace cs with
      | [] => [[c]]
      | t :: ts => (c :: t) :: ts

/-- Embeds the Rust slice `&s[n..]` (character granularity). -/
def strDrop (s : String) (n : Nat) : String := String.mk (s.data.drop n)

/-- Embeds Rust `str::starts_with` (character granularity). -/
def strStartsWith (s p : String) : Bool := s.data.take p.data.length = p.data

/-- Embeds the `{:0>4}` format used for the Discord discriminator:
left-pad the decimal rendering with zeros to width 4. -/
def padZero4 (n : Nat) : String :=
  let s := toString n
  String.mk (List.replicate (4 - s.length) '0') ++ s

/-- The parsed configuration (`struct Config` in the source). The source
field `prefix` is a Lean keyword, so it is called `pref` here. -/
structure Config where
  admin_users : List Nat
  pref : String
  token : String
deriving DecidableEq

/-- A Discord attachment as built by `get_rand_attachment`
(`twilight_model::http::attachment::Attachment`). -/
structure Attachment where
  description : Option String
  file : List Nat
  filename : String
  id : Nat
deriving DecidableEq

/-- One outbound `create_message` call: the target channel, the attachments
passed to `.attachments(..)`, and the text passed to `.content(..)`. -/
structure OutboundMessage where
  channel : Nat
  attachments : List Attachment
  content : Option String
deriving DecidableEq

instance : DecidableEq (Except String Unit) := fun a b =>
  match a, b with
  | Except.ok (), Except.ok () => isTrue rfl
  | Except.error x, Except.error y =>
    if h : x = y then isTrue (by rw [h])
    else isFalse (fun hh => h (by cases hh; rfl))
  | Except.ok (), Except.error _ => isFalse (fun hh => Except.noConfusion hh)
  | Except.error _, Except.ok () => isFalse (fun hh => Except.noConfusion hh)

/-- Everything observable about one handler invocation: which command
handlers were entered, the outbound calls attempted, console output, and
the `HandlerError` result the handler returns. -/
structure HandlerResult where
  invoked : List String
  outbound : List OutboundMessage
  stdout : List String
  stderr : List String
  result : Except String Unit
deriving DecidableEq

/-- The Discord HTTP client as an external collaborator: sending a message
either succeeds or fails (validation and network errors folded together). -/
structure HttpEnv where
  sendResult : OutboundMessage → Except String Unit

/-- A `MessageCreate` payload: author bot flag, raw text, channel id. -/
structure MessageCreate where
  author_bot : Bool
  content : String
  channel_id : Nat
deriving DecidableEq

/-- The inbound gateway events the dispatcher distinguishes. -/
inductive Event where
  | messageCreate (msg : MessageCreate)
  | ready (userName : String) (discriminator : Nat)
  | other
deriving DecidableEq

/-- `EventHandler::get_random_image`: `None` on an empty store, otherwise
the entry at a uniformly drawn in-bounds index (draw `r` reduced mod the
length), with name and bytes cloned. -/
def EventHandler.get_random_image (images : List Image) (r : Nat) :
    Option Image :=
  if h : images.length = 0 then none
  else
    some (images.get ⟨r % images.length, Nat.mod_lt r (Nat.pos_of_ne_zero h)⟩)

/-- `EventHandler::get_rand_attachment`: wrap the random image in an
`Attachment` with no description and id 0. -/
def EventHandler.get_rand_attachment (images : List Image) (r : Nat) :
    Option Attachment :=
  match EventHandler.get_random_image images r with
  | some (filename, file) => some ⟨none, file, filename, 0⟩
  | none => none

/-- `EventHandler::cmd_pittie`: one outbound message to the originating
channel, carrying either the random attachment or the fallback text. -/
def EventHandler.cmd_pittie (env : HttpEnv) (images : List Image) (r : Nat)
    (channelId : Nat) : HandlerResult :=
  match EventHandler.get_rand_attachment images r with
  | some attachment =>
    let m : OutboundMessage :=
      { channel := channelId, attachments := [attachment], content := none }
    { invoked := ["pittie"], outbound := [m], stdout := [], stderr := [],
      result := env.sendResult m }
  | none =>
    let m : OutboundMessage :=
      { channel := channelId, attachments := [],
        content := some "No images provided ):" }
    { invoked := ["pittie"], outbound := [m], stdout := [], stderr := [],
      result := env.sendResult m }

/-- `EventHandler::process_cmd`: strip the configured prefix, split the
remainder on spaces, and route on the first token (`args[0]`; an
out-of-bounds index, i.e. a Rust panic, is `none`). The `"addpittie"` arm
is commented out in the source, so only `"pittie"` is routed; everything
else logs an unknown-command diagnostic and sends nothing. -/
def EventHandler.process_cmd (env : HttpEnv) (cfg : Config)
    (images : List Image) (r : Nat) (msg : MessageCreate) :
    Option HandlerResult :=
  let args := (splitSpace (strDrop msg.content cfg.pref.length).data).map
    String.mk
  match args with
  | [] => none
  | a0 :: _ =>
    if a0 = "pittie" then
      some (EventHandler.cmd_pittie env images r msg.channel_id)
    else
      some { invoked := [], outbound := [], stdout := [],
             stderr := ["Unknown command: " ++ cfg.pref ++ a0],
             result := Except.ok () }

/-- `EventHandler::handle_event`: route a `MessageCreate` from a non-bot
author whose content starts with the prefix to `process_cmd`; log the
identity on `Ready`; ignore everything else. -/
def EventHandler.handle_event (env : HttpEnv) (cfg : Config)
    (images : List Image) (r : Nat) (event : Event) : Option HandlerResult :=
  match event with
  | Event.messageCreate msg =>
    if !msg.author_bot && strStartsWith msg.content cfg.pref then
      EventHandler.process_cmd env cfg images r msg
    else
      some { invoked := [], outbound := [], stdout := [], stderr := [],
             result := Except.ok () }
  | Event.ready userName discriminator =>
    some { invoked := [], outbound := [],
           stdout := ["Logged in as " ++ userName ++ "#"
             ++ padZero4 discriminator],
           stderr := [], result := Except.ok () }
  | Event.other =>
    some { invoked := [], outbound := [], stdout := [], stderr := [],
           result := Except.ok () }

/-- The filter condition of the dispatcher: a message-create event from a
non-bot author whose content starts with the configured prefix. -/
def qualifies (cfg : Config) : Event → Prop
  | Event.messageCreate msg =>
    msg.author_bot = false ∧ strStartsWith msg.content cfg.pref = true
  | _ => False

instance (cfg : Config) : (e : Event) → Decidable (qualifies cfg e)
  | Event.messageCreate _ => inferInstanceAs (Decidable (_ ∧ _))
  | Event.ready _ _ => inferInstanceAs (Decidable False)
  | Event.other => inferInstanceAs (Decidable False)

/-- The body of the closure given to `tokio::spawn` in `Pittie::run`: run
the handler on one event; if it returns an error, log it. The task always
yields unit; its observable output is the stderr it produced. A `none`
(panic inside the task, never reached) aborts only that task. -/
def Pittie.spawned_task (env : HttpEnv) (cfg : Config) (images : List Image)
    (p : Nat × Event) : List String :=
  match EventHandler.handle_event env cfg images p.1 p.2 with
  | some res =>
    match res.result with
    | Except.ok _ => res.stderr
    | Except.error e =>
      res.stderr ++ ["An error occurred while handling an event: " ++ e]
  | none => []

/-- `Pittie::run`: pull every event from the stream in order and hand each
to its own spawned task (each paired with the random draw its handler will
consume). The loop itself never fails. -/
def Pittie.run (env : HttpEnv) (cfg : Config) (images : List Image)
    (events : List (Nat × Event)) : List (List String) :=
  events.map (Pittie.spawned_task env cfg images)

/-- Embeds Rust `str::ends_with` (character granularity): the trailing
`p.length` characters of `s` equal `p`. -/
def strEndsWith (s p : String) : Bool :=
  s.data.drop (s.data.length - p.data.length) = p.data

/-- `supported_type`: recognized image extensions, case-sensitive. -/
def supported_type (filename : String) : Bool :=
  strEndsWith filename ".png" || strEndsWith filename ".jpg"
    || strEndsWith filename ".jpeg"

/-- Kinds of I/O errors the bootstrap code distinguishes. -/
inductive IoErrorKind where
  | notFound
  | permissionDenied
  | otherKind
deriving DecidableEq

/-- An I/O error: its kind and its rendered message. -/
structure IoError where
  kind : IoErrorKind
  msg : String
deriving DecidableEq

/-- The filesystem as an external collaborator for `Pittie::get_images`:
the result of `fs::read_dir` (each directory entry is itself fallible,
modelling the `f?` unwrap), the result of `fs::create_dir`, the result of
re-reading the directory after creating it, and per-file `read_file`. -/
structure Fs where
  readDir : Except IoError (List (Except IoError String))
  createDir : Except IoError Unit
  readDirAfterCreate : Except IoError (List (Except IoError String))
  readFile : String → Except IoError (List Nat)

/-- The `for f in dir_iter` loop of `Pittie::get_images`: unwrap each
entry, keep those passing `supported_type`, read their bytes; any entry
error or read error aborts the whole load. -/
def Pittie.load_entries (readFile : String → Except IoError (List Nat)) :
    List (Except IoError String) → Except String (List Image)
  | [] => Except.ok []
  | Except.error e :: _ => Except.error e.msg
  | Except.ok filename :: rest =>
    if supported_type filename then
      match readFile filename with
      | Except.error e => Except.error e.msg
      | Except.ok contents =>
        match Pittie.load_entries readFile rest with
        | Except.ok imgs => Except.ok ((filename, contents) :: imgs)
        | Except.error m => Except.error m
    else
      Pittie.load_entries readFile rest

/-- `Pittie::get_images`: open the image directory; if it does not exist,
create it and re-read it; any other open error, entry error or file read
error aborts startup with an error. -/
def Pittie.get_images (fs : Fs) : Except String (List Image) :=
  match fs.readDir with
  | Except.ok entries => Pittie.load_entries fs.readFile entries
  | Except.error e =>
    if e.kind = IoErrorKind.notFound then
      match fs.createDir with
      | Except.error _ => Except.error "Couldn't create image dir"
      | Except.ok _ =>
        match fs.readDirAfterCreate with
        | Except.error _ => Except.error "Couldn't read image dir"
        | Except.ok entries => Pittie.load_entries fs.readFile entries
    else
      Except.error e.msg

/-- The default configuration written by `Config::create_default_config`. -/
def Config.default_config : Config :=
  { admin_users := [], pref := "%", token := "your token here" }

/-- The contents of the config file: either raw bytes found on disk, or
the pretty-printed serialization of a `Config` value. -/
inductive ConfigFile where
  | raw (content : String)
  | encoded (c : Config)
deriving DecidableEq

/-- `Config::create_default_config`: (re)create the config file holding
the serialized default configuration. -/
def Config.create_default_config : ConfigFile :=
  ConfigFile.encoded Config.default_config

/-- What `Config::init_config` does to the process: either proceed with a
parsed config, or exit with a code; in both cases the final state of the
config file and the console output are recorded. -/
inductive InitOutcome where
  | proceed (cfg : Config) (file : ConfigFile)
  | exited (code : Nat) (file : ConfigFile) (stdout : List String)
      (stderr : List String)
deriving DecidableEq

/-- `Config::init_config`: a missing file is replaced by the default
config and the process exits with code 1; an unparsable file is likewise
replaced by the default config before exiting with code 1; a parsable
file is left unchanged and its config is used. `serde_json::from_reader`
is the external collaborator `parse`. -/
def Config.init_config (parse : String → Option Config)
    (file : Option String) : InitOutcome :=
  match file with
  | none =>
    InitOutcome.exited 1 Config.create_default_config
      ["No config found, creating a new one."] []
  | some content =>
    match parse content with
    | some cfg => InitOutcome.proceed cfg (ConfigFile.raw content)
    | none =>
      InitOutcome.exited 1 Config.create_default_config []
        ["Invalid config, resetting to default"]

/-! ## Helper lemmas -/

theorem splitSpace_ne_nil (l : List Char) : splitSpace l ≠ [] := by
  induction l with
  | nil => simp [splitSpace]
  | cons c cs ih =>
    simp only [splitSpace]
    split
    · simp
    · split
      · simp
      · simp

theorem splitSpace_no_space (l : List Char) (h : ' ' ∉ l) :
    splitSpace l = [l] := by
  induction l with
  | nil => rfl
  | cons c cs ih =>
    have hc : ¬ c = ' ' := fun hh => h (by rw [hh]; exact List.mem_cons_self _ _)
    have hcs : ' ' ∉ cs := fun hh => h (List.mem_cons_of_mem _ hh)
    simp only [splitSpace, if_neg hc, ih hcs]

theorem strDrop_append (p w : String) : strDrop (p ++ w) p.length = w := by
  cases p with
  | mk pd =>
    cases w with
    | mk wd =>
      show String.mk ((pd ++ wd).drop pd.length) = String.mk wd
      rw [List.drop_left]

theorem strMk_data (s : String) : String.mk s.data = s := by
  cases s; rfl

/-- Routing any message whose remainder after the prefix is a single
space-free token other than `"pittie"` hits the unknown-command arm. -/
theorem process_cmd_unknown (env : HttpEnv) (cfg : Config)
    (images : List Image) (r : Nat) (b : Bool) (channel : Nat) (w : String)
    (hw : ' ' ∉ w.data) (hp : w ≠ "pittie") :
    EventHandler.process_cmd env cfg images r ⟨b, cfg.pref ++ w, channel⟩ =
      some { invoked := [], outbound := [], stdout := [],
             stderr := ["Unknown command: " ++ cfg.pref ++ w],
             result := Except.ok () } := by
  unfold EventHandler.process_cmd
  simp only [strDrop_append, splitSpace_no_space _ hw, List.map_cons,
    List.map_nil, strMk_data]
  rw [if_neg hp]

/-- `process_cmd` never hits the out-of-bounds arm: `split` always yields
at least one token, so `args[0]` is in bounds. -/
theorem process_cmd_isSome (env : HttpEnv) (cfg : Config)
    (images : List Image) (r : Nat) (msg : MessageCreate) :
    (EventHandler.process_cmd env cfg images r msg).isSome := by
  unfold EventHandler.process_cmd
  cases hl : splitSpace (strDrop msg.content cfg.pref.length).data with
  | nil => exact absurd hl (splitSpace_ne_nil _)
  | cons a as =>
    simp only [hl, List.map_cons]
    split <;> rfl

/-! ## Claims -/

/-- C1: `get_random_image` returns `none` on an empty store; on a
non-empty store it returns `some` of the entry at an in-bounds index, an
entry of the collection. -/
theorem claim_C1_pick_random (images : List Image) (r : Nat) :
    (images = [] → EventHandler.get_random_image images r = none) ∧
    (images ≠ [] →
      ∃ (i : Nat) (h : i < images.length),
        EventHandler.get_random_image images r =
          some (images.get ⟨i, h⟩) ∧
        images.get ⟨i, h⟩ ∈ images) := by
  constructor
  · intro he; subst he; rfl
  · intro hne
    have hlen : images.length ≠ 0 :=
      fun hh => hne (List.length_eq_zero.mp hh)
    refine ⟨r % images.length, Nat.mod_lt r (Nat.pos_of_ne_zero hlen),
      ?_, List.get_mem _ _ _⟩
    unfold EventHandler.get_random_image
    rw [dif_neg hlen]

theorem claim_C1_pick_random_witness :
    EventHandler.get_random_image ([] : List Image) 0 = none ∧
    ∃ (i : Nat) (h : i < ([("x.png", [7])] : List Image).length),
      EventHandler.get_random_image [("x.png", [7])] 3 =
        some (([("x.png", [7])] : List Image).get ⟨i, h⟩) ∧
      ([("x.png", [7])] : List Image).get ⟨i, h⟩ ∈
        ([("x.png", [7])] : List Image) :=
  ⟨(claim_C1_pick_random [] 0).1 rfl,
   (claim_C1_pick_random [("x.png", [7])] 3).2 (by decide)⟩

/-- C2: no command handler is invoked (and no outbound call attempted)
on any event that is not a non-bot message-create starting with the
configured prefix; ready events and bot messages invoke nothing. -/
theorem claim_C2_dispatcher_filter (env : HttpEnv) (cfg : Config)
    (images : List Image) (r : Nat) (ev : Event)
    (h : ¬ qualifies cfg ev) :
    ∃ res, EventHandler.handle_event env cfg images r ev = some res ∧
      res.invoked = [] ∧ res.outbound = [] := by
  cases ev with
  | messageCreate msg =>
    have hg : (!msg.author_bot && strStartsWith msg.content cfg.pref)
        = false := by
      cases hb : msg.author_bot <;>
        cases hs : strStartsWith msg.content cfg.pref <;>
        simp_all [qualifies]
    simp only [EventHandler.handle_event, hg, Bool.false_eq_true, if_false]
    exact ⟨_, rfl, rfl, rfl⟩
  | ready u d => exact ⟨_, rfl, rfl, rfl⟩
  | other => exact ⟨_, rfl, rfl, rfl⟩

theorem claim_C2_dispatcher_filter_witness :
    (∃ res, EventHandler.handle_event ⟨fun _ => Except.ok ()⟩
        ⟨[], "%", "tok"⟩ [] 0 (Event.ready "bot" 1) = some res ∧
      res.invoked = [] ∧ res.outbound = []) ∧
    ∃ res, EventHandler.handle_event ⟨fun _ => Except.ok ()⟩
        ⟨[], "%", "tok"⟩ [] 0
        (Event.messageCreate ⟨true, "%pittie", 5⟩) = some res ∧
      res.invoked = [] ∧ res.outbound = [] :=
  ⟨claim_C2_dispatcher_filter _ _ _ _ _ (by decide),
   claim_C2_dispatcher_filter _ _ _ _ _ (by decide)⟩

/-- C3 counterexample: with prefix `"%"`, the message `"%addpittie"` IS
classified as an unknown command — the router emits the unknown-command
diagnostic for it, refuting the claim that `"addpittie"` is recognized
and not classified as unknown. -/
theorem claim_C3_addpittie_counterexample :
    EventHandler.process_cmd ⟨fun _ => Except.ok ()⟩ ⟨[], "%", "tok"⟩
        [] 0 ⟨false, "%addpittie", 5⟩ =
      some { invoked := [], outbound := [], stdout := [],
             stderr := ["Unknown command: %addpittie"],
             result := Except.ok () } := by
  rfl

/-- C3 (amended): the `"addpittie"` arm is commented out in the source,
so the router does NOT recognize it: a message whose token after the
prefix is `"addpittie"` sends no outbound message, invokes no handler,
and is logged as an unknown command. -/
theorem claim_C3_addpittie_noop (env : HttpEnv) (cfg : Config)
    (images : List Image) (r : Nat) (b : Bool) (channel : Nat) :
    EventHandler.process_cmd env cfg images r
        ⟨b, cfg.pref ++ "addpittie", channel⟩ =
      some { invoked := [], outbound := [], stdout := [],
             stderr := ["Unknown command: " ++ cfg.pref ++ "addpittie"],
             result := Except.ok () } :=
  process_cmd_unknown env cfg images r b channel "addpittie"
    (by decide) (by decide)

/-- C4: for any space-free token other than `"pittie"` — including the
empty token of a message equal to just the prefix — the router sends no
outbound message, invokes no handler, and emits the unknown-command
diagnostic; moreover indexing the first token (`args[0]`) is in bounds
for every message, so `process_cmd` never panics. -/
theorem claim_C4_unknown_token_safe (env : HttpEnv) (cfg : Config)
    (images : List Image) (r : Nat) (b : Bool) (channel : Nat) (w : String)
    (hw : ' ' ∉ w.data) (hp : w ≠ "pittie") :
    (∃ res, EventHandler.process_cmd env cfg images r
        ⟨b, cfg.pref ++ w, channel⟩ = some res ∧
      res.outbound = [] ∧ res.invoked = [] ∧
      res.stderr = ["Unknown command: " ++ cfg.pref ++ w]) ∧
    ∀ (content : String) (b2 : Bool) (ch : Nat),
      (EventHandler.process_cmd env cfg images r
        ⟨b2, content, ch⟩).isSome := by
  constructor
  · exact ⟨_, process_cmd_unknown env cfg images r b channel w hw hp,
      rfl, rfl, rfl⟩
  · intro content b2 ch
    exact process_cmd_isSome env cfg images r _

theorem claim_C4_unknown_token_safe_witness :
    (∃ res, EventHandler.process_cmd ⟨fun _ => Except.ok ()⟩
        ⟨[], "%", "tok"⟩ [] 0
        ⟨false, (Config.mk [] "%" "tok").pref ++ "", 5⟩ = some res ∧
      res.outbound = [] ∧ res.invoked = [] ∧
      res.stderr =
        ["Unknown command: " ++ (Config.mk [] "%" "tok").pref ++ ""]) ∧
    ∀ (content : String) (b2 : Bool) (ch : Nat),
      (EventHandler.process_cmd ⟨fun _ => Except.ok ()⟩ ⟨[], "%", "tok"⟩
        [] 0 ⟨b2, content, ch⟩).isSome :=
  claim_C4_unknown_token_safe ⟨fun _ => Except.ok ()⟩ ⟨[], "%", "tok"⟩
    [] 0 false 5 "" (by decide) (by decide)

/-- A successful load implies every directory entry unwrapped cleanly and
every supported file was read successfully. -/
theorem load_entries_ok_inv (rf : String → Except IoError (List Nat))
    (entries : List (Except IoError String)) (imgs : List Image)
    (h : Pittie.load_entries rf entries = Except.ok imgs) :
    ∀ x ∈ entries, (∀ e, x ≠ Except.error e) ∧
      ∀ name, x = Except.ok name → supported_type name = true →
        ∃ bytes, rf name = Except.ok bytes := by
  induction entries generalizing imgs with
  | nil => intro x hx; cases hx
  | cons hd tl ih =>
    intro x hx
    cases hd with
    | error e =>
      simp only [Pittie.load_entries] at h
      exact Except.noConfusion h
    | ok name =>
      simp only [Pittie.load_entries] at h
      rcases List.mem_cons.mp hx with rfl | hx
      · by_cases hs : supported_type name = true
        · rw [if_pos hs] at h
          cases hrf : rf name with
          | error e => rw [hrf] at h; exact Except.noConfusion h
          | ok bytes =>
            exact ⟨fun e hh => Except.noConfusion hh,
              fun nm hnm _ => by cases hnm; exact ⟨bytes, hrf⟩⟩
        · exact ⟨fun e hh => Except.noConfusion hh,
            fun nm hnm hsup => absurd (by cases hnm; exact hsup) hs⟩
      · by_cases hs : supported_type name = true
        · rw [if_pos hs] at h
          cases hrf : rf name with
          | error e => rw [hrf] at h; exact Except.noConfusion h
          | ok bytes =>
            rw [hrf] at h
            cases hrec : Pittie.load_entries rf tl with
            | error m => rw [hrec] at h; exact Except.noConfusion h
            | ok imgs2 => exact ih imgs2 hrec x hx
        · rw [if_neg hs] at h
          exact ih imgs h x hx

/-- When every file read succeeds, loading a listing of plain names
yields exactly the supported ones, in order. -/
theorem load_entries_names (rf : String → Except IoError (List Nat))
    (hrf : ∀ name, ∃ bytes, rf name = Except.ok bytes)
    (names : List String) :
    ∃ imgs,
      Pittie.load_entries rf (names.map Except.ok) = Except.ok imgs ∧
      imgs.map Prod.fst = names.filter (fun n => supported_type n) := by
  induction names with
  | nil => exact ⟨[], rfl, rfl⟩
  | cons hd tl ih =>
    obtain ⟨imgs, h1, h2⟩ := ih
    obtain ⟨bytes, hb⟩ := hrf hd
    by_cases hs : supported_type hd = true
    · refine ⟨(hd, bytes) :: imgs, ?_, ?_⟩
      · simp only [List.map_cons, Pittie.load_entries, if_pos hs, hb, h1]
      · simp [h2, List.filter_cons, hs]
    · refine ⟨imgs, ?_, ?_⟩
      · simp only [List.map_cons, Pittie.load_entries, if_neg hs, h1]
      · simp [h2, List.filter_cons, hs]

/-- C5: a missing image directory is created and an empty store is
returned as a success; a non-not-found open error, a failure to create,
a bad directory entry or a failed file read each abort the load with an
error. -/
theorem claim_C5_load_error_policy (fs : Fs) :
    (∀ e, fs.readDir = Except.error e → e.kind = IoErrorKind.notFound →
      fs.createDir = Except.ok () →
      fs.readDirAfterCreate = Except.ok [] →
      Pittie.get_images fs = Except.ok []) ∧
    (∀ e, fs.readDir = Except.error e → e.kind ≠ IoErrorKind.notFound →
      Pittie.get_images fs = Except.error e.msg) ∧
    (∀ e ec, fs.readDir = Except.error e →
      e.kind = IoErrorKind.notFound → fs.createDir = Except.error ec →
      Pittie.get_images fs = Except.error "Couldn't create image dir") ∧
    (∀ entries, fs.readDir = Except.ok entries →
      ((∃ e, Except.error e ∈ entries) ∨
        (∃ name e, Except.ok name ∈ entries ∧ supported_type name = true ∧
          fs.readFile name = Except.error e)) →
      ∃ m, Pittie.get_images fs = Except.error m) := by
  refine ⟨?_, ?_, ?_, ?_⟩
  · intro e h1 h2 h3 h4
    simp only [Pittie.get_images, h1, h2, h3, h4, if_pos]
    rfl
  · intro e h1 h2
    simp only [Pittie.get_images, h1]
    rw [if_neg h2]
  · intro e ec h1 h2 h3
    simp only [Pittie.get_images, h1, h2, h3, if_pos]
  · intro entries hdir hbad
    cases hres : Pittie.load_entries fs.readFile entries with
    | error m =>
      exact ⟨m, by unfold Pittie.get_images; rw [hdir]; exact hres⟩
    | ok imgs =>
      exfalso
      have inv := load_entries_ok_inv fs.readFile entries imgs hres
      rcases hbad with ⟨e, hmem⟩ | ⟨name, e, hmem, hsup, hread⟩
      · exact (inv _ hmem).1 e rfl
      · obtain ⟨bytes, hok⟩ := (inv _ hmem).2 name rfl hsup
        rw [hok] at hread
        exact Except.noConfusion hread

theorem claim_C5_load_error_policy_witness :
    Pittie.get_images
      ⟨Except.error ⟨IoErrorKind.notFound, "not found"⟩, Except.ok (),
        Except.ok [], fun _ => Except.ok []⟩ = Except.ok [] ∧
    Pittie.get_images
      ⟨Except.error ⟨IoErrorKind.permissionDenied, "denied"⟩, Except.ok (),
        Except.ok [], fun _ => Except.ok []⟩ = Except.error "denied" :=
  ⟨(claim_C5_load_error_policy _).1 ⟨IoErrorKind.notFound, "not found"⟩
      rfl rfl rfl rfl,
   (claim_C5_load_error_policy _).2.1
      ⟨IoErrorKind.permissionDenied, "denied"⟩ rfl (by decide)⟩

/-- C6: a directory listing loads exactly the entries whose name ends in
`.png`, `.jpg` or `.jpeg` (case-sensitive), in listing order. -/
theorem claim_C6_extension_filter (fs : Fs) (names : List String)
    (hdir : fs.readDir = Except.ok (names.map Except.ok))
    (hrf : ∀ name, ∃ bytes, fs.readFile name = Except.ok bytes) :
    ∃ imgs, Pittie.get_images fs = Except.ok imgs ∧
      imgs.map Prod.fst = names.filter (fun n => supported_type n) := by
  unfold Pittie.get_images
  rw [hdir]
  exact load_entries_names fs.readFile hrf names

theorem claim_C6_extension_filter_witness :
    ∃ imgs,
      Pittie.get_images
        ⟨Except.ok [Except.ok "a.png", Except.ok "b.jpg",
          Except.ok "c.txt"], Except.ok (), Except.ok [],
          fun _ => Except.ok [0]⟩ = Except.ok imgs ∧
      imgs.map Prod.fst = ["a.png", "b.jpg"] := by
  obtain ⟨imgs, h1, h2⟩ := claim_C6_extension_filter
    ⟨Except.ok [Except.ok "a.png", Except.ok "b.jpg", Except.ok "c.txt"],
      Except.ok (), Except.ok [], fun _ => Except.ok [0]⟩
    ["a.png", "b.jpg", "c.txt"] rfl (fun name => ⟨[0], rfl⟩)
  exact ⟨imgs, h1, by rw [h2]; decide⟩

/-- C7: `cmd_pittie` creates exactly one outbound message for the
originating channel — carrying the picked entry's bytes as an attachment
under its display name with no text fallback when the store yields an
entry, and the fallback text with no attachment when it yields none. -/
theorem claim_C7_fetch_and_send (env : HttpEnv) (images : List Image)
    (r : Nat) (channel : Nat) :
    (∀ name bytes,
      EventHandler.get_random_image images r = some (name, bytes) →
      (EventHandler.cmd_pittie env images r channel).outbound =
        [{ channel := channel, attachments := [⟨none, bytes, name, 0⟩],
           content := none }]) ∧
    (EventHandler.get_random_image images r = none →
      (EventHandler.cmd_pittie env images r channel).outbound =
        [{ channel := channel, attachments := [],
           content := some "No images provided ):" }]) := by
  constructor
  · intro name bytes h
    unfold EventHandler.cmd_pittie EventHandler.get_rand_attachment
    rw [h]
  · intro h
    unfold EventHandler.cmd_pittie EventHandler.get_rand_attachment
    rw [h]

theorem claim_C7_fetch_and_send_witness :
    (EventHandler.cmd_pittie ⟨fun _ => Except.ok ()⟩ [("x.png", [7])] 0
        5).outbound =
      [{ channel := 5, attachments := [⟨none, [7], "x.png", 0⟩],
         content := none }] ∧
    (EventHandler.cmd_pittie ⟨fun _ => Except.ok ()⟩ [] 0 5).outbound =
      [{ channel := 5, attachments := [],
         content := some "No images provided ):" }] :=
  ⟨(claim_C7_fetch_and_send ⟨fun _ => Except.ok ()⟩ [("x.png", [7])] 0
      5).1 "x.png" [7] rfl,
   (claim_C7_fetch_and_send ⟨fun _ => Except.ok ()⟩ [] 0 5).2 rfl⟩

/-- C8 counterexample: on a missing config file the written default token
is `"your token here"`, not `"Insert your token here"` as claimed. -/
theorem claim_C8_default_config_counterexample :
    Config.init_config (fun _ => none) none =
      InitOutcome.exited 1 (ConfigFile.encoded Config.default_config)
        ["No config found, creating a new one."] [] ∧
    Config.default_config.token ≠ "Insert your token here" :=
  ⟨rfl, by decide⟩

/-- C8 (amended): on a missing config file the loader writes a default
config whose token is `"your token here"`, whose prefix is `"%"` and
whose admin list is empty, then exits with code 1 without proceeding. -/
theorem claim_C8_missing_config_defaults
    (parse : String → Option Config) :
    Config.init_config parse none =
      InitOutcome.exited 1
        (ConfigFile.encoded
          { admin_users := [], pref := "%", token := "your token here" })
        ["No config found, creating a new one."] [] :=
  rfl

/-- C9: the dispatch loop hands every event, in order, to its own task;
a handler error is caught inside that task and logged, the task yields
its log and nothing else, and no error value reaches the loop. -/
theorem claim_C9_error_containment (env : HttpEnv) (cfg : Config)
    (images : List Image) (events : List (Nat × Event)) :
    (Pittie.run env cfg images events).length = events.length ∧
    (∀ p rest, Pittie.run env cfg images (p :: rest) =
      Pittie.spawned_task env cfg images p ::
        Pittie.run env cfg images rest) ∧
    (∀ r ev res e,
      EventHandler.handle_event env cfg images r ev = some res →
      res.result = Except.error e →
      Pittie.spawned_task env cfg images (r, ev) =
        res.stderr ++ ["An error occurred while handling an event: " ++ e]) := by
  refine ⟨List.length_map _ _, fun p rest => rfl, ?_⟩
  intro r ev res e h1 h2
  simp only [Pittie.spawned_task, h1, h2]

theorem claim_C9_error_containment_witness :
    Pittie.spawned_task ⟨fun _ => Except.error "network down"⟩
        ⟨[], "%", "tok"⟩ [("x.png", [7])]
        (0, Event.messageCreate ⟨false, "%pittie", 5⟩) =
      ([] : List String) ++
        ["An error occurred while handling an event: " ++ "network down"] :=
  (claim_C9_error_containment ⟨fun _ => Except.error "network down"⟩
      ⟨[], "%", "tok"⟩ [("x.png", [7])] []).2.2
    0 (Event.messageCreate ⟨false, "%pittie", 5⟩)
    { invoked := ["pittie"],
      outbound :=
        [{ channel := 5, attachments := [⟨none, [7], "x.png", 0⟩],
           content := none }],
      stdout := [], stderr := [], result := Except.error "network down" }
    "network down" rfl rfl

/-- C10: a malformed (unparsable) config file is not left unchanged: the
loader overwrites it with the serialized default config and then exits
with code 1, logging the reset diagnostic. -/
theorem claim_C10_malformed_reset (parse : String → Option Config)
    (content : String) (h : parse content = none) :
    Config.init_config parse (some content) =
      InitOutcome.exited 1 (ConfigFile.encoded Config.default_config) []
        ["Invalid config, resetting to default"] ∧
    ∀ c, ConfigFile.encoded Config.default_config ≠ ConfigFile.raw c := by
  constructor
  · simp only [Config.init_config, h]
    rfl
  · intro c hh
    exact ConfigFile.noConfusion hh

theorem claim_C10_malformed_reset_witness :
    Config.init_config (fun _ => none) (some "not json") =
      InitOutcome.exited 1 (ConfigFile.encoded Config.default_config) []
        ["Invalid config, resetting to default"] :=
  (claim_C10_malformed_reset (fun _ => none) "not json" rfl).1
